import Mathlib

/-!
Verification of the mask-indexed gather/scatter transform, censor-matrix
construction, design-matrix assembly and zero-to-NaN conversion of the
neu502b course notebooks (fmri-1, fMRI-2 subject-level GLM, fmri-6 FC).

Grids are modelled as a spatial shape (a list of extents) together with a
total value function on multi-indices; a timed grid additionally carries a
number of time points.  Coordinates are enumerated in row-major order, the
order produced by numpy's `np.where`.  Values are rationals; a NaN entry of
a framewise-displacement column is modelled as `none`.
-/

/-- A shape: the list of extents of an n-dimensional array. -/
abbrev Shape := List Nat

/-- A multi-index into an n-dimensional array. -/
abbrev Coord := List Nat

/-- The error taxonomy of the transform (spec section 7). -/
inductive TransformError where
  | invalidMaskError
  | shapeMismatchError
  | lengthMismatchError
deriving DecidableEq

deriving instance DecidableEq for Except

/-- Does the multi-index lie inside the shape (same rank, each component
within its extent)?  numpy raises on any index outside these bounds. -/
def coordInBounds : Coord → Shape → Bool
  | [], [] => true
  | i :: c, n :: s => decide (i < n) && coordInBounds c s
  | _, _ => false

/-- All multi-indices of a shape, in row-major (C) order: the order numpy
stores elements and the order `np.where` reports true positions. -/
def allCoords : Shape → List Coord
  | [] => [[]]
  | n :: s => (List.range n).flatMap fun i => (allCoords s).map fun c => i :: c

/-- `mask_coords = np.where(mask_bool)` (fmri-2 notebook) /
`roi_vertices = np.where(parcellation == labels.index(roi_label))[0]`
(fmri-6 notebook): the positions where the mask is true, in row-major
order. -/
def mask_coords (s : Shape) (m : Coord → Bool) : List Coord :=
  (allCoords s).filter m

/-- A dense grid with no time axis: a spatial shape and a value at every
multi-index. -/
structure Grid where
  spatial : Shape
  val : Coord → ℚ

/-- A dense grid with a trailing time axis of length `time`. -/
structure TGrid where
  spatial : Shape
  time : Nat
  val : Coord → Nat → ℚ

/-- Modelled from the spec: `coordinates(mask) -> CoordinateSet` with the
error cases of spec section 4.1 (the notebooks use bare `np.where` with no
validation, so the `InvalidMaskError` checks exist only in the spec):
fail with `InvalidMaskError` if the mask has no true entry, or if a grid
shape is supplied for validation and the mask shape differs from it. -/
def coordinates (maskShape : Shape) (m : Coord → Bool) (gridShape : Option Shape) :
    Except TransformError (List Coord) :=
  if (allCoords maskShape).any m then
    match gridShape with
    | some s =>
        if maskShape = s then .ok (mask_coords maskShape m)
        else .error .invalidMaskError
    | none => .ok (mask_coords maskShape m)
  else .error .invalidMaskError

/-- Modelled from the spec: `gather(grid, coordinates)` for a grid with no
time axis, producing the flat vector of values at the coordinates
(`bold[mask_coords]` in the fmri-2 notebook); fails with
`ShapeMismatchError` if some coordinate exceeds the grid's spatial bounds
(the notebooks rely on numpy's own bounds check). -/
def gather (g : Grid) (coords : List Coord) : Except TransformError (List ℚ) :=
  if coords.all (fun c => coordInBounds c g.spatial) then
    .ok (coords.map g.val)
  else .error .shapeMismatchError

/-- Modelled from the spec: `gather(grid, coordinates)` for a grid of shape
(…spatial…, T), producing the (T, len(coordinates)) matrix — the notebook's
`bold[mask_coords]` followed by `.T`; fails with `ShapeMismatchError` if
some coordinate exceeds the grid's spatial bounds. -/
def gatherT (g : TGrid) (coords : List Coord) : Except TransformError (List (List ℚ)) :=
  if coords.all (fun c => coordInBounds c g.spatial) then
    .ok ((List.range g.time).map fun t => coords.map fun c => g.val c t)
  else .error .shapeMismatchError

/-- Sequential writes of `values` at `coords` on top of `acc` at index `c`:
the last write wins, as in numpy fancy-index assignment. -/
def writeSeq (acc : ℚ) : List ℚ → List Coord → Coord → ℚ
  | v :: vs, d :: ds, c => writeSeq (if d = c then v else acc) vs ds c
  | _, _, _ => acc

/-- The value at `c` of a zero-initialised buffer after writing `values` at
`coords` in order (`beta_map = np.zeros(...); beta_map[mask_coords] = b[0]`
in the fmri-2 notebook). -/
def scatterVal (values : List ℚ) (coords : List Coord) (c : Coord) : ℚ :=
  writeSeq 0 values coords c

/-- Modelled from the spec: `scatter(values, coordinates, shape)` — allocate
a zero-filled grid of `shape` and write `values` at `coordinates`; fails
with `LengthMismatchError` if `len(values) != len(coordinates)` (the
notebooks rely on numpy's own length check on fancy-index assignment). -/
def scatter (values : List ℚ) (coords : List Coord) (shape : Shape) :
    Except TransformError Grid :=
  if values.length = coords.length then
    .ok ⟨shape, fun c => scatterVal values coords c⟩
  else .error .lengthMismatchError

/-! ### Basic lemmas about coordinates -/

theorem mem_allCoords {s : Shape} {c : Coord} :
    c ∈ allCoords s ↔ coordInBounds c s = true := by
  induction s generalizing c with
  | nil => cases c <;> simp [allCoords, coordInBounds]
  | cons n s ih =>
    cases c with
    | nil => simp [allCoords, coordInBounds, List.mem_flatMap]
    | cons i c =>
      simp only [allCoords, List.mem_flatMap, List.mem_map, List.mem_range,
        coordInBounds, Bool.and_eq_true, decide_eq_true_eq]
      constructor
      · rintro ⟨j, hj, d, hd, heq⟩
        rw [List.cons.injEq] at heq
        obtain ⟨rfl, rfl⟩ := heq
        exact ⟨hj, ih.mp hd⟩
      · rintro ⟨hi, hc⟩
        exact ⟨i, hi, c, ih.mpr hc, rfl⟩

theorem mem_mask_coords {s : Shape} {m : Coord → Bool} {c : Coord} :
    c ∈ mask_coords s m ↔ c ∈ allCoords s ∧ m c = true := by
  simp [mask_coords, List.mem_filter]

theorem mask_coords_inBounds {s : Shape} {m : Coord → Bool} {c : Coord}
    (h : c ∈ mask_coords s m) : coordInBounds c s = true :=
  mem_allCoords.mp (mem_mask_coords.mp h).1

/-! ### Scatter evaluation -/

theorem writeSeq_map (f : Coord → ℚ) (coords : List Coord) (c : Coord) (acc : ℚ) :
    writeSeq acc (coords.map f) coords c = if c ∈ coords then f c else acc := by
  induction coords generalizing acc with
  | nil => simp [writeSeq]
  | cons d ds ih =>
    simp only [List.map_cons, writeSeq, ih, List.mem_cons]
    by_cases hds : c ∈ ds
    · simp [hds]
    · by_cases hdc : d = c
      · subst hdc; simp [hds]
      · have hcd : ¬(c = d ∨ c ∈ ds) := by
          rintro (rfl | h)
          · exact hdc rfl
          · exact hds h
        have hcd2 : ¬c = d := fun h => hdc h.symm
        simp only [if_neg hcd, if_neg hcd2, if_neg hdc, if_neg hds]

theorem scatterVal_map (f : Coord → ℚ) (coords : List Coord) (c : Coord) :
    scatterVal (coords.map f) coords c = if c ∈ coords then f c else 0 :=
  writeSeq_map f coords c 0

/-! ### Success of the three operations on well-formed inputs -/

theorem gather_ok (g : Grid) (coords : List Coord)
    (h : ∀ c ∈ coords, coordInBounds c g.spatial = true) :
    gather g coords = .ok (coords.map g.val) := by
  unfold gather
  rw [if_pos (List.all_eq_true.mpr h)]

theorem gatherT_ok (g : TGrid) (coords : List Coord)
    (h : ∀ c ∈ coords, coordInBounds c g.spatial = true) :
    gatherT g coords =
      .ok ((List.range g.time).map fun t => coords.map fun c => g.val c t) := by
  unfold gatherT
  rw [if_pos (List.all_eq_true.mpr h)]

theorem scatter_ok (values : List ℚ) (coords : List Coord) (shape : Shape)
    (h : values.length = coords.length) :
    scatter values coords shape = .ok ⟨shape, fun c => scatterVal values coords c⟩ := by
  unfold scatter
  rw [if_pos h]

theorem coordinates_ok (s : Shape) (m : Coord → Bool)
    (hne : (allCoords s).any m = true) :
    coordinates s m (some s) = .ok (mask_coords s m) := by
  unfold coordinates
  rw [if_pos hne]
  simp

theorem scatterVal_mask (s : Shape) (m : Coord → Bool) (f : Coord → ℚ) {c : Coord}
    (hc : c ∈ allCoords s) :
    scatterVal ((mask_coords s m).map f) (mask_coords s m) c =
      if m c then f c else 0 := by
  rw [scatterVal_map]
  by_cases hm : m c = true
  · rw [if_pos (mem_mask_coords.mpr ⟨hc, hm⟩), if_pos hm]
  · rw [if_neg (fun h => hm (mem_mask_coords.mp h).2), if_neg hm]

/-! ### The round-trip law (spec section 4.1, algorithm-level contract) -/

/-- The round-trip contract for a mask `m` over spatial shape `s`, a grid
`g` with no time axis and a timed grid `tg`, both of spatial shape `s`:
`coordinates` succeeds, `gather` and `scatter` succeed on its output, the
scattered grid agrees with the original at every position where the mask
is true and holds the fill value 0 everywhere else, and likewise at each
time point of the timed grid. -/
def RoundTrip (s : Shape) (m : Coord → Bool) (g : Grid) (tg : TGrid) : Prop :=
  coordinates s m (some s) = .ok (mask_coords s m) ∧
  gather g (mask_coords s m) = .ok ((mask_coords s m).map g.val) ∧
  scatter ((mask_coords s m).map g.val) (mask_coords s m) s =
    .ok ⟨s, fun c => scatterVal ((mask_coords s m).map g.val) (mask_coords s m) c⟩ ∧
  (∀ c ∈ allCoords s,
    scatterVal ((mask_coords s m).map g.val) (mask_coords s m) c =
      if m c then g.val c else 0) ∧
  gatherT tg (mask_coords s m) =
    .ok ((List.range tg.time).map fun t => (mask_coords s m).map fun c => tg.val c t) ∧
  (∀ t, t < tg.time → ∀ c ∈ allCoords s,
    scatterVal ((mask_coords s m).map fun c => tg.val c t) (mask_coords s m) c =
      if m c then tg.val c t else 0)

/-- C1: for every boolean mask with at least one true entry and every grid
whose spatial shape matches the mask — with or without a time axis, of any
dimensionality — scattering the gathered values back at the mask's
coordinates reproduces the grid at every masked position and the fill
value zero everywhere else. -/
theorem gather_scatter_round_trip (s : Shape) (m : Coord → Bool) (g : Grid) (tg : TGrid)
    (hg : g.spatial = s) (htg : tg.spatial = s)
    (hne : (allCoords s).any m = true) : RoundTrip s m g tg := by
  subst hg
  refine ⟨coordinates_ok _ m hne,
    gather_ok g _ (fun c hc => mask_coords_inBounds hc),
    scatter_ok _ _ _ (by rw [List.length_map]),
    fun c hc => scatterVal_mask _ m g.val hc,
    gatherT_ok tg _ (fun c hc => htg ▸ mask_coords_inBounds hc),
    fun t _ c hc => scatterVal_mask _ m (fun c => tg.val c t) hc⟩

/-- A concrete 1-D mask over two positions, true exactly at position 0. -/
def wMask1 : Coord → Bool := fun c => c == [0]

/-- A concrete 1-D grid of spatial shape [2]. -/
def wGrid1 : Grid := ⟨[2], fun c => if c == [0] then 3 else 7⟩

/-- A concrete 1-D timed grid of spatial shape [2] with two time points. -/
def wTGrid1 : TGrid := ⟨[2], 2, fun c t => if c == [0] then (t : ℚ) else 5⟩

/-- Witness for C1: the round-trip law instantiated at a concrete 1-D mask
and concrete grids. -/
theorem gather_scatter_round_trip_witness : RoundTrip [2] wMask1 wGrid1 wTGrid1 :=
  gather_scatter_round_trip [2] wMask1 wGrid1 wTGrid1 rfl rfl (by decide)

/-! ### Error cases of the spec's operations -/

/-- C2: `coordinates` fails with `InvalidMaskError` when the mask has no
true entries (for any optional validation shape), and also when a grid
shape is supplied for validation and the mask's shape does not match it. -/
theorem coordinates_invalid_mask (ms : Shape) (m : Coord → Bool) :
    ((∀ c ∈ allCoords ms, m c = false) →
      ∀ og : Option Shape, coordinates ms m og = .error .invalidMaskError) ∧
    (∀ s : Shape, ms ≠ s → coordinates ms m (some s) = .error .invalidMaskError) := by
  constructor
  · intro h og
    unfold coordinates
    rw [if_neg]
    simp only [List.any_eq_true, not_exists, not_and]
    intro c hc hm
    rw [h c hc] at hm
    exact Bool.false_ne_true hm
  · intro s hs
    unfold coordinates
    by_cases hne : (allCoords ms).any m = true
    · rw [if_pos hne]
      simp [hs]
    · rw [if_neg hne]

/-- Witness for C2: the all-false mask over shape [2] raises
`InvalidMaskError`, and so does a mask validated against a different grid
shape. -/
theorem coordinates_invalid_mask_witness :
    coordinates [2] (fun _ => false) none = .error .invalidMaskError ∧
    coordinates [2] (fun _ => true) (some [3]) = .error .invalidMaskError :=
  ⟨(coordinates_invalid_mask [2] (fun _ => false)).1 (by decide) none,
   (coordinates_invalid_mask [2] (fun _ => true)).2 [3] (by decide)⟩

/-- C4: `scatter` fails with `LengthMismatchError` whenever the number of
values differs from the number of coordinates. -/
theorem scatter_length_mismatch (values : List ℚ) (coords : List Coord) (shape : Shape)
    (h : values.length ≠ coords.length) :
    scatter values coords shape = .error .lengthMismatchError := by
  unfold scatter
  rw [if_neg h]

/-- Witness for C4: one value against zero coordinates raises
`LengthMismatchError`. -/
theorem scatter_length_mismatch_witness :
    scatter [1] [] [2] = .error .lengthMismatchError :=
  scatter_length_mismatch [1] [] [2] (by decide)

/-! ### Determinism and cardinality of the coordinate set -/

/-- C5: the coordinate set depends only on the mask's values over the
grid's positions (two masks agreeing there give the same positions in the
same fixed row-major order), and its size is the number of true entries. -/
theorem mask_coords_deterministic (s : Shape) (m m2 : Coord → Bool)
    (h : ∀ c ∈ allCoords s, m c = m2 c) :
    mask_coords s m = mask_coords s m2 ∧
    (mask_coords s m).length = (allCoords s).countP m := by
  constructor
  · exact List.filter_congr h
  · rw [mask_coords, ← List.countP_eq_length_filter]

/-- Witness for C5: two extensionally equal masks over shape [2, 2]
produce the same coordinate list, whose length counts the true entries. -/
theorem mask_coords_deterministic_witness :
    mask_coords [2, 2] (fun c => c == [0, 1]) =
      mask_coords [2, 2] (fun c => c == [0, 1] || c == [5, 5]) ∧
    (mask_coords [2, 2] (fun c => c == [0, 1])).length =
      (allCoords [2, 2]).countP (fun c => c == [0, 1]) :=
  mask_coords_deterministic [2, 2] (fun c => c == [0, 1])
    (fun c => c == [0, 1] || c == [5, 5]) (by decide)

/-! ### Output shapes of gather -/

/-- The shape contract of `gather`: a vector of length `len(coords)` for a
grid with no time axis, and a `time × len(coords)` matrix for a timed
grid. -/
def GatherShape (g : Grid) (tg : TGrid) (coords : List Coord) : Prop :=
  (∃ vals, gather g coords = .ok vals ∧ vals.length = coords.length) ∧
  (∃ rows, gatherT tg coords = .ok rows ∧ rows.length = tg.time ∧
    ∀ row ∈ rows, row.length = coords.length)

/-- C6: on in-bounds coordinates, `gather` on a timed grid returns a
matrix of shape (T, len(coords)), and on a grid with no time axis a vector
of length len(coords). -/
theorem gather_output_shape (g : Grid) (tg : TGrid) (coords : List Coord)
    (h1 : ∀ c ∈ coords, coordInBounds c g.spatial = true)
    (h2 : ∀ c ∈ coords, coordInBounds c tg.spatial = true) :
    GatherShape g tg coords := by
  refine ⟨⟨_, gather_ok g coords h1, by simp⟩,
    ⟨_, gatherT_ok tg coords h2, by simp, ?_⟩⟩
  intro row hrow
  obtain ⟨t, _, rfl⟩ := List.mem_map.mp hrow
  simp

/-- Witness for C6: the shape contract at a concrete grid, timed grid and
coordinate list. -/
theorem gather_output_shape_witness : GatherShape wGrid1 wTGrid1 [[0], [1]] :=
  gather_output_shape wGrid1 wTGrid1 [[0], [1]] (by decide) (by decide)

/-! ### Gather bounds errors -/

/-- An all-true mask of any shape. -/
def allTrueMask : Coord → Bool := fun _ => true

/-- A zero grid of spatial shape [4, 5]. -/
def zeroGrid45 : Grid := ⟨[4, 5], fun _ => 0⟩

/-- A zero grid of spatial shape [4, 4]. -/
def zeroGrid44 : Grid := ⟨[4, 4], fun _ => 0⟩

/-- Counterexample to C3's particular case: every coordinate of a mask of
shape (4,4) lies within the spatial bounds of a grid of shape (4,5), so
`gather` succeeds on them instead of raising `ShapeMismatchError`. -/
theorem gather_4x4_mask_on_4x5_grid_no_error :
    gather zeroGrid45 (mask_coords [4, 4] allTrueMask) ≠
      Except.error TransformError.shapeMismatchError := by decide

/-- C3 (amended): `gather` fails with `ShapeMismatchError` whenever some
coordinate exceeds the grid's spatial bounds; in particular a mask of
shape (4,5) applied to a grid of shape (4,4) raises it, while the
(4,4)-mask-on-(4,5)-grid direction stays within bounds. -/
theorem gather_shape_mismatch (g : Grid) (coords : List Coord)
    (h : ∃ c ∈ coords, coordInBounds c g.spatial = false) :
    gather g coords = .error .shapeMismatchError := by
  unfold gather
  rw [if_neg]
  intro hall
  obtain ⟨c, hc, hb⟩ := h
  have := List.all_eq_true.mp hall c hc
  rw [hb] at this
  exact Bool.false_ne_true this

/-- Witness for the amended C3: a mask of shape (4,5) applied to a grid of
shape (4,4) raises `ShapeMismatchError`. -/
theorem gather_shape_mismatch_witness :
    gather zeroGrid44 (mask_coords [4, 5] allTrueMask) =
      .error .shapeMismatchError :=
  gather_shape_mismatch zeroGrid44 (mask_coords [4, 5] allTrueMask) (by decide)

/-! ### The 4x4 worked example -/

/-- The 4x4 grid holding values 0..15 in row-major order. -/
def exGrid : Grid :=
  ⟨[4, 4], fun c => match c with
    | [i, j] => ((4 * i + j : Nat) : ℚ)
    | _ => 0⟩

/-- The mask over shape (4,4) true exactly at positions (1,1) and (2,2). -/
def exMask : Coord → Bool := fun c => c == [1, 1] || c == [2, 2]

/-- C8: on the 4x4 grid of values 0..15 with the mask true at (1,1) and
(2,2), the coordinate set is [(1,1), (2,2)] in that order, `gather` returns
[5, 10] in that order, and `scatter([5,10], coords, (4,4))` is zero
everywhere except the value 5 at (1,1) and 10 at (2,2). -/
theorem gather_scatter_4x4_example :
    mask_coords [4, 4] exMask = [[1, 1], [2, 2]] ∧
    gather exGrid (mask_coords [4, 4] exMask) = .ok [5, 10] ∧
    scatter [5, 10] (mask_coords [4, 4] exMask) [4, 4] =
      .ok ⟨[4, 4], fun c => scatterVal [5, 10] (mask_coords [4, 4] exMask) c⟩ ∧
    (∀ c ∈ allCoords [4, 4],
      scatterVal [5, 10] (mask_coords [4, 4] exMask) c =
        if c = [1, 1] then 5 else if c = [2, 2] then 10 else 0) := by
  refine ⟨by decide, by decide, scatter_ok _ _ _ (by decide), by decide⟩

/-! ### Design-matrix assembly -/

/-- The intercept column: constant 1 (the notebook's column of 1s). -/
def interceptCol : Nat → ℚ := fun _ => 1

/-- Modelled from the spec: design-matrix assembly.  The notebook keeps
only `X = np.column_stack([blocks_hrf, confounds])`; the cell assembling
`confounds` (nuisance columns plus a column of 1s as the intercept) is
left blank for students, so it is modelled here from the spec's words:
columns are the task regressors, then the confound columns, then the
intercept; rows are the time points `0, …, T-1`. -/
def designMatrix (T : Nat) (tasks confs : List (Nat → ℚ)) : List (List ℚ) :=
  (List.range T).map fun t => (tasks ++ confs ++ [interceptCol]).map fun col => col t

/-- The invariants of the assembled design matrix: row count equals the
number of time points, every row has one column per task regressor and
confound plus the intercept, the intercept column (the last entry of every
row) is constantly 1, and with 2 task regressors and 3 confounds every row
has exactly 6 entries. -/
def DesignProp (T : Nat) (tasks confs : List (Nat → ℚ)) : Prop :=
  (designMatrix T tasks confs).length = T ∧
  (∀ row ∈ designMatrix T tasks confs,
    row.length = tasks.length + confs.length + 1) ∧
  (∀ row ∈ designMatrix T tasks confs, row.getLast? = some 1) ∧
  (tasks.length = 2 → confs.length = 3 →
    ∀ row ∈ designMatrix T tasks confs, row.length = 6)

/-- C7: the assembled design matrix has one row per acquired volume, an
intercept column that is constantly 1, and with 2 task regressors and 3
confound columns plus the intercept exactly 6 columns. -/
theorem design_matrix_shape (T : Nat) (tasks confs : List (Nat → ℚ)) :
    DesignProp T tasks confs := by
  have hlast : ∀ t, ((tasks ++ confs ++ [interceptCol]).map fun col => col t).getLast?
      = some 1 := by
    intro t
    rw [List.map_append]
    simp [interceptCol]
  refine ⟨by simp [designMatrix], ?_, ?_, ?_⟩
  · intro row hrow
    obtain ⟨t, _, rfl⟩ := List.mem_map.mp hrow
    simp [Nat.add_assoc]
  · intro row hrow
    obtain ⟨t, _, rfl⟩ := List.mem_map.mp hrow
    exact hlast t
  · intro h2 h3 row hrow
    obtain ⟨t, _, rfl⟩ := List.mem_map.mp hrow
    simp [h2, h3]

/-- Two concrete task-regressor columns. -/
def wTasks : List (Nat → ℚ) := [fun t => (t : ℚ), fun _ => 2]

/-- Three concrete confound columns. -/
def wConfs : List (Nat → ℚ) := [fun _ => 3, fun _ => 4, fun t => (t : ℚ) + 1]

/-- Witness for C7: the design-matrix invariants at 4 time points, 2
concrete task regressors and 3 concrete confounds, with the inner
hypotheses discharged on the first row. -/
theorem design_matrix_shape_witness :
    (designMatrix 4 wTasks wConfs).length = 4 ∧
    ((wTasks ++ wConfs ++ [interceptCol]).map fun col => col 0).getLast? = some 1 ∧
    ((wTasks ++ wConfs ++ [interceptCol]).map fun col => col 0).length = 6 :=
  ⟨(design_matrix_shape 4 wTasks wConfs).1,
   (design_matrix_shape 4 wTasks wConfs).2.2.1 _ (List.mem_map.mpr ⟨0, by decide, rfl⟩),
   (design_matrix_shape 4 wTasks wConfs).2.2.2 rfl rfl _
     (List.mem_map.mpr ⟨0, by decide, rfl⟩)⟩

/-! ### Motion-censor matrix -/

/-- The framewise-displacement threshold `fd_threshold = 0.25` of the
fmri-2 notebook. -/
def fd_threshold : ℚ := 1 / 4

/-- `fd[np.isnan(fd)] = 0`: the displacement series with NaN entries
(modelled as `none`) replaced by 0. -/
def fdClean (fd : List (Option ℚ)) : List ℚ := fd.map fun x => x.getD 0

/-- `bad_vols = np.argwhere(fd >= fd_threshold)`: the indices whose
displacement is at or above the threshold, in increasing order. -/
def bad_vols (fd : List ℚ) : List Nat :=
  (List.range fd.length).filter fun i => decide (fd_threshold ≤ fd.getD i 0)

/-- `censors = np.zeros((T, k)); censors[bad_vols.T, np.arange(k)] = 1`:
the T-by-k censor matrix whose column j holds 1 exactly at row
`bad_vols[j]` and 0 everywhere else. -/
def censors (T : Nat) (bad : List Nat) : List (List ℚ) :=
  (List.range T).map fun i => bad.map fun b => if i = b then 1 else 0

theorem censors_entry (T : Nat) (bad : List Nat) {i j : Nat}
    (hi : i < T) (hj : j < bad.length) :
    ((censors T bad).getD i []).getD j 0 = if i = bad.getD j 0 then 1 else 0 := by
  have h1 : (censors T bad).getD i [] = bad.map fun b => if i = b then (1 : ℚ) else 0 := by
    unfold censors
    rw [List.getD_eq_getElem _ _ (by simpa using hi)]
    simp
  rw [h1, List.getD_eq_getElem _ _ (by simpa using hj), List.getD_eq_getElem _ _ hj]
  simp

/-- The invariants of the censor matrix built from a displacement series
`fd` (with `none` for NaN): shape (T, k) with T the series length and k
the number of over-threshold indices, each column holding exactly the
indicator of its over-threshold index, every recorded bad volume being a
genuine in-range over-threshold index, and a NaN volume never censored. -/
def CensorProp (fd : List (Option ℚ)) : Prop :=
  (censors fd.length (bad_vols (fdClean fd))).length = fd.length ∧
  (∀ row ∈ censors fd.length (bad_vols (fdClean fd)),
    row.length = (bad_vols (fdClean fd)).length) ∧
  (bad_vols (fdClean fd)).length =
    (List.range fd.length).countP
      (fun i => decide (fd_threshold ≤ (fdClean fd).getD i 0)) ∧
  (∀ i, i < fd.length → ∀ j, j < (bad_vols (fdClean fd)).length →
    ((censors fd.length (bad_vols (fdClean fd))).getD i []).getD j 0 =
      if i = (bad_vols (fdClean fd)).getD j 0 then 1 else 0) ∧
  (∀ j, j < (bad_vols (fdClean fd)).length →
    (bad_vols (fdClean fd)).getD j 0 < fd.length ∧
    fd_threshold ≤ (fdClean fd).getD ((bad_vols (fdClean fd)).getD j 0) 0) ∧
  (∀ i, fd.getD i (some 1) = none → i ∉ bad_vols (fdClean fd))

/-- C9: the censor matrix built from a framewise-displacement series (NaN
replaced by 0) has shape (T, k) with k the number of over-threshold
indices; each column is 1 exactly at its over-threshold index and 0
elsewhere, and a volume whose displacement was NaN is never censored. -/
theorem censors_correct (fd : List (Option ℚ)) : CensorProp fd := by
  refine ⟨by simp [censors], ?_, ?_, ?_, ?_, ?_⟩
  · intro row hrow
    obtain ⟨i, _, rfl⟩ := List.mem_map.mp hrow
    simp
  · simp [bad_vols, fdClean, ← List.countP_eq_length_filter]
  · intro i hi j hj
    exact censors_entry _ _ hi hj
  · intro j hj
    have hmem : (bad_vols (fdClean fd)).getD j 0 ∈ bad_vols (fdClean fd) := by
      rw [List.getD_eq_getElem _ _ hj]
      exact List.getElem_mem hj
    rw [bad_vols, List.mem_filter, List.mem_range] at hmem
    obtain ⟨hr, hp⟩ := hmem
    have hlen : (fdClean fd).length = fd.length := by
      simp [fdClean]
    exact ⟨hlen ▸ hr, of_decide_eq_true hp⟩
  · intro i hnan hmem
    have hilen : i < fd.length := by
      by_contra h
      push_neg at h
      rw [List.getD_eq_default _ _ h] at hnan
      exact Option.noConfusion hnan
    rw [bad_vols, List.mem_filter] at hmem
    have hp := hmem.2
    have hv : (fdClean fd).getD i 0 = 0 := by
      have hfi : fd[i] = none := by
        rw [List.getD_eq_getElem _ _ hilen] at hnan
        exact hnan
      rw [fdClean, List.getD_eq_getElem _ _ (by simpa using hilen)]
      simp [hfi]
    rw [hv] at hp
    have : ¬ (fd_threshold ≤ (0 : ℚ)) := by norm_num [fd_threshold]
    simp [this] at hp

/-- A concrete displacement series: over threshold at volume 0, NaN at
volume 1, under threshold at volume 2. -/
def wFd : List (Option ℚ) := [some (3 / 10), none, some (1 / 10)]

theorem wFd_bad_vols : bad_vols (fdClean wFd) = [0] := by
  simp only [wFd, fdClean, bad_vols, List.map_cons, List.map_nil, List.length_cons,
    List.length_nil, Option.getD_some, Option.getD_none]
  norm_num [List.range_succ, fd_threshold]

/-- Witness for C9: on the concrete series, the (0,0) entry of the censor
matrix is the indicator of the recorded bad volume, and the NaN volume 1
is never censored. -/
theorem censors_correct_witness :
    ((censors 3 (bad_vols (fdClean wFd))).getD 0 []).getD 0 0 =
      (if 0 = (bad_vols (fdClean wFd)).getD 0 0 then 1 else 0) ∧
    1 ∉ bad_vols (fdClean wFd) :=
  ⟨(censors_correct wFd).2.2.2.1 0 (by decide) 0 (by simp [wFd_bad_vols]),
   (censors_correct wFd).2.2.2.2.2 1 (by decide)⟩

/-! ### Zero-to-NaN conversion of the beta map -/

/-- `beta_map[beta_map == 0] = np.nan` (fmri-2 notebook): every entry of
the map exactly equal to 0 replaced by NaN (modelled as `none`), every
other entry kept. -/
def betaMapNaN (g : Grid) : Coord → Option ℚ :=
  fun c => if g.val c = 0 then none else some (g.val c)

/-- The behaviour of the zero-to-NaN conversion on a beta map scattered
from coefficients `f` at `coords` into a zero-filled grid of shape `s`:
every exactly-zero position becomes `none`, every nonzero position is
kept; an in-mask position `cin` whose coefficient is exactly zero becomes
`none`, indistinguishable from an out-of-mask position `cout`. -/
def BetaNaNProp (f : Coord → ℚ) (coords : List Coord) (s : Shape)
    (cin cout : Coord) : Prop :=
  (∀ c, scatterVal (coords.map f) coords c = 0 →
    betaMapNaN ⟨s, scatterVal (coords.map f) coords⟩ c = none) ∧
  (∀ c, scatterVal (coords.map f) coords c ≠ 0 →
    betaMapNaN ⟨s, scatterVal (coords.map f) coords⟩ c =
      some (scatterVal (coords.map f) coords c)) ∧
  betaMapNaN ⟨s, scatterVal (coords.map f) coords⟩ cin = none ∧
  betaMapNaN ⟨s, scatterVal (coords.map f) coords⟩ cout = none

/-- C10: after scattering the fitted coefficients into a zero-filled grid,
every position whose value is exactly zero is replaced with NaN — also an
in-mask position whose coefficient is exactly zero — so an in-mask zero
coefficient becomes indistinguishable from the out-of-mask background. -/
theorem beta_map_zero_to_nan (f : Coord → ℚ) (coords : List Coord) (s : Shape)
    (cin cout : Coord) (hin : cin ∈ coords) (hz : f cin = 0)
    (hout : cout ∉ coords) : BetaNaNProp f coords s cin cout := by
  refine ⟨?_, ?_, ?_, ?_⟩
  · intro c h
    simp [betaMapNaN, h]
  · intro c h
    simp [betaMapNaN, h]
  · have hv : scatterVal (coords.map f) coords cin = 0 := by
      rw [scatterVal_map, if_pos hin, hz]
    simp [betaMapNaN, hv]
  · have hv : scatterVal (coords.map f) coords cout = 0 := by
      rw [scatterVal_map, if_neg hout]
    simp [betaMapNaN, hv]

/-- A concrete coefficient function: zero at position [0], 2 elsewhere. -/
def wBetaF : Coord → ℚ := fun c => if c == [0] then 0 else 2

/-- Witness for C10: with coefficients `wBetaF` scattered at positions [0]
and [1] of a 1-D grid of extent 3, the in-mask zero at [0] and the
out-of-mask position [2] both map to `none`. -/
theorem beta_map_zero_to_nan_witness : BetaNaNProp wBetaF [[0], [1]] [3] [0] [2] :=
  beta_map_zero_to_nan wBetaF [[0], [1]] [3] [0] [2] (by decide) (by decide) (by decide)
